import Mathlib

/-!
Shallow embedding of the dynamic pricing and market analytics engine of the
festival-shop simulation (frontend/src/services/pricing/PricingStrategy.ts,
frontend/src/services/pricing/PricingService.ts, and the AnalyticsService),
together with theorems settling the specification claims about it.

Modelling conventions:
* JavaScript numbers are modelled as exact rationals (ℚ); the thresholds and
  multipliers in the source are short decimal literals, so exact rational
  arithmetic mirrors the double arithmetic at every comparison the claims
  touch, except for division by zero, which is modelled explicitly below.
* `Date.now()` becomes an explicit `now` parameter, and the default
  `timeWindowHours = 24` argument is inserted at the call sites that omit it.
* The single effectful call (the catalog price write) is modelled by a boolean
  success oracle passed in explicitly, and the write attempt is recorded in
  the returned outcome so that "does not attempt the write" is observable.
-/

/-- The Product row of the catalog (frontend/src/database/products.ts):
id (int8), name, emoji, price, stock, initialstock. -/
structure Product where
  id : Int
  name : String
  emoji : String
  price : ℚ
  stock : ℚ
  initialstock : ℚ
deriving DecidableEq

/-- A sale-log record (frontend/src/types/admin.ts `SalesRecord`). -/
structure SalesRecord where
  productId : String
  quantity : ℚ
  revenue : ℚ
  timestamp : ℚ
  priceAtSale : ℚ
deriving DecidableEq

namespace DemandBasedPricing

/-- Source `DemandBasedPricing.calculateDemandFactor`: the step function from recent
sales volume to the demand multiplier. -/
def calculateDemandFactor (recentSales : ℚ) : ℚ :=
  if recentSales ≥ 10 then 1.3
  else if recentSales ≥ 5 then 1.15
  else if recentSales ≥ 2 then 1.0
  else if recentSales ≥ 1 then 0.95
  else 0.8

/-- The `totalRecentSales` computed inside `DemandBasedPricing.calculatePrice`:
the quantities of this product's sales within the time window, summed with
`reduce((sum, sale) => sum + sale.quantity, 0)`. -/
def totalRecentSales (product : Product) (salesHistory : List SalesRecord)
    (timeWindowHours : ℚ) (now : ℚ) : ℚ :=
  let timeWindow := timeWindowHours * 60 * 60 * 1000
  let recentSales := salesHistory.filter fun sale =>
    decide (sale.productId = toString product.id) &&
      decide (now - sale.timestamp ≤ timeWindow)
  recentSales.foldl (fun sum sale => sum + sale.quantity) 0

/-- Source `DemandBasedPricing.calculatePrice`: demand multiplier applied to the base
price, clamped to `[0.7 × basePrice, 1.5 × basePrice]`. -/
def calculatePrice (product : Product) (salesHistory : List SalesRecord)
    (timeWindowHours : ℚ) (now : ℚ) : ℚ :=
  let basePrice := product.price
  let demandFactor :=
    calculateDemandFactor (totalRecentSales product salesHistory timeWindowHours now)
  let newPrice := basePrice * demandFactor
  let minPrice := basePrice * 0.7
  let maxPrice := basePrice * 1.5
  max minPrice (min maxPrice newPrice)

end DemandBasedPricing

namespace SupplyBasedPricing

/-- The stock multiplier computed inside `SupplyBasedPricing.calculatePrice`.
The source forms the IEEE-754 quotient `product.stock / product.initialstock`
and then runs the comparison chain
`ratio <= 0.1 → 1.2; ratio <= 0.3 → 1.1; ratio >= 0.8 → 0.95; else 1.0`.
When `initialstock = 0` the JavaScript quotient is `NaN` (for `stock = 0`,
every comparison false, so the default 1.0 survives) or `±Infinity` (for
`stock ≠ 0`, satisfying only the `≥ 0.8` resp. `≤ 0.1` comparison); the first
branch below encodes exactly those outcomes.  For `initialstock ≠ 0` the
quotient is the exact rational one. -/
def stockFactor (stock initialstock : ℚ) : ℚ :=
  if initialstock = 0 then
    if stock = 0 then 1.0
    else if stock > 0 then 0.95
    else 1.2
  else
    let stockRatio := stock / initialstock
    if stockRatio ≤ 0.1 then 1.2
    else if stockRatio ≤ 0.3 then 1.1
    else if stockRatio ≥ 0.8 then 0.95
    else 1.0

/-- Source `SupplyBasedPricing.calculatePrice`: stock multiplier applied to the base
price, clamped to `[0.8 × basePrice, 1.4 × basePrice]`. -/
def calculatePrice (product : Product) : ℚ :=
  let basePrice := product.price
  let newPrice := basePrice * stockFactor product.stock product.initialstock
  let minPrice := basePrice * 0.8
  let maxPrice := basePrice * 1.4
  max minPrice (min maxPrice newPrice)

end SupplyBasedPricing

namespace HybridPricing

/-- Source `HybridPricing.calculatePrice`: the 60/40 weighted combination of the
demand-based and supply-based prices, clamped to
`[0.5 × basePrice, 2.0 × basePrice]`. -/
def calculatePrice (product : Product) (salesHistory : List SalesRecord)
    (timeWindowHours : ℚ) (now : ℚ) : ℚ :=
  let demandPrice :=
    DemandBasedPricing.calculatePrice product salesHistory timeWindowHours now
  let supplyPrice := SupplyBasedPricing.calculatePrice product
  let hybridPrice := demandPrice * 0.6 + supplyPrice * 0.4
  let basePrice := product.price
  let minPrice := basePrice * 0.5
  let maxPrice := basePrice * 2.0
  max minPrice (min maxPrice hybridPrice)

end HybridPricing

namespace PricingService

/-- Source `PricingService.calculatePrice` with the default `HybridPricing` strategy.
`applyDynamicPricing` calls it without a `timeWindowHours` argument, so the
strategy's default of 24 hours applies. -/
def calculatePrice (product : Product) (salesHistory : List SalesRecord) (now : ℚ) : ℚ :=
  HybridPricing.calculatePrice product salesHistory 24 now

/-- Observable outcome of `PricingService.applyDynamicPricing`: the returned
price together with whether the catalog write was attempted. -/
structure ApplyOutcome where
  finalPrice : ℚ
  writeAttempted : Bool
deriving DecidableEq

/-- Source `PricingService.applyDynamicPricing`: computes the recommendation with the
active (default Hybrid) strategy; if the absolute change reaches
`minPriceChange` it attempts the catalog write (`updateProductPrice`, modelled
by the `writeSucceeds` oracle) and falls back to the original price when the
write reports failure; below the threshold it returns the unchanged price
without attempting a write. -/
def applyDynamicPricing (writeSucceeds : Bool) (product : Product)
    (salesHistory : List SalesRecord) (now : ℚ) (minPriceChange : ℚ) : ApplyOutcome :=
  let newPrice := calculatePrice product salesHistory now
  let priceChange := |newPrice - product.price|
  if priceChange ≥ minPriceChange then
    if writeSucceeds then { finalPrice := newPrice, writeAttempted := true }
    else { finalPrice := product.price, writeAttempted := true }
  else { finalPrice := product.price, writeAttempted := false }

/-- Source `PricingService.applyDynamicPricingBatch`: runs the single-product
operation (with its default `minPriceChange = 0.01`) over the copied array,
replacing each product's price with the returned final price.  The write
oracle is indexed by product id, one independent outcome per product. -/
def applyDynamicPricingBatch (writeSucceeds : Int → Bool) (products : List Product)
    (salesHistory : List SalesRecord) (now : ℚ) : List Product :=
  products.map fun product =>
    { product with
      price :=
        (applyDynamicPricing (writeSucceeds product.id) product salesHistory now
            0.01).finalPrice }

end PricingService

namespace AnalyticsService

/-- The `ProductStats` record (frontend/src/types/admin.ts); the price history
entries are (priceAtSale, timestamp) pairs. -/
structure ProductStats where
  productId : String
  totalSold : ℚ
  totalRevenue : ℚ
  averagePrice : ℚ
  priceHistory : List (ℚ × ℚ)
deriving DecidableEq

/-- Source `AnalyticsService.calculateProductStats`: filters the log to the product,
sums quantity and revenue with `reduce`, computes the average realized price
(0 when nothing was sold), and collects the (price, timestamp) history. -/
def calculateProductStats (productId : String) (salesHistory : List SalesRecord) :
    ProductStats :=
  let productSales := salesHistory.filter fun sale => decide (sale.productId = productId)
  let totalSold : ℚ := productSales.foldl (fun sum sale => sum + sale.quantity) 0
  let totalRevenue : ℚ := productSales.foldl (fun sum sale => sum + sale.revenue) 0
  let averagePrice := if totalSold > 0 then totalRevenue / totalSold else 0
  let priceHistory := productSales.map fun sale => (sale.priceAtSale, sale.timestamp)
  { productId := productId, totalSold := totalSold, totalRevenue := totalRevenue,
    averagePrice := averagePrice, priceHistory := priceHistory }

/-- Source `AnalyticsService.calculatePriceInflation`: compares the mean `priceAtSale`
of the last 10 log records (`slice(-10)`) against the first 10 (`slice(0,10)`);
returns 0 when either group is empty or the old mean is not positive.
JavaScript's `slice(-10)` on a list of length `n` keeps the last
`min 10 n` elements, which is `drop (n - 10)` with truncated subtraction. -/
def calculatePriceInflation (salesHistory : List SalesRecord) : ℚ :=
  let recentSales := salesHistory.drop (salesHistory.length - 10)
  let oldSales := salesHistory.take 10
  if recentSales.length = 0 ∨ oldSales.length = 0 then 0
  else
    let recentAvgPrice : ℚ :=
      recentSales.foldl (fun sum sale => sum + sale.priceAtSale) 0 / (recentSales.length : ℚ)
    let oldAvgPrice : ℚ :=
      oldSales.foldl (fun sum sale => sum + sale.priceAtSale) 0 / (oldSales.length : ℚ)
    if oldAvgPrice > 0 then (recentAvgPrice - oldAvgPrice) / oldAvgPrice * 100 else 0

/-- Source expression `[...new Set(salesHistory.map(sale => sale.productId))]`: the distinct
product ids of the log in first-appearance order (a JavaScript `Set` preserves
insertion order). -/
def distinctProductIds (salesHistory : List SalesRecord) : List String :=
  salesHistory.foldl
    (fun acc sale => if sale.productId ∈ acc then acc else acc ++ [sale.productId]) []

/-- The boolean comparator corresponding to the stable JavaScript sort with
comparator `(a, b) => b.totalSold - a.totalSold`: a may precede b exactly when
its `totalSold` is at least b's. -/
def statsLe (a b : ProductStats) : Bool :=
  decide (b.totalSold ≤ a.totalSold)

/-- Source `AnalyticsService.getTopProducts`: stats for each distinct product id of
the log, stably sorted by descending `totalSold`, truncated to 5 entries.
`List.mergeSort` is a stable sort, matching the (since ES2019) stability
guarantee of `Array.prototype.sort`. -/
def getTopProducts (salesHistory : List SalesRecord) : List ProductStats :=
  ((((distinctProductIds salesHistory).map
        fun id => calculateProductStats id salesHistory)).mergeSort statsLe).take 5

end AnalyticsService

/-- Mean `priceAtSale` of a group of sale records, the quantity the inflation
metric compares between the oldest and the most recent ten records. -/
def meanPriceAtSale (l : List SalesRecord) : ℚ :=
  (l.map fun s => s.priceAtSale).sum / (l.length : ℚ)

/-- A two-product log whose products are tied on units sold, with "a" sold
first; used to exhibit the stable tie-break of the top-products ranking. -/
def sampleTieLog : List SalesRecord :=
  [⟨"a", 1, 2, 0, 2⟩, ⟨"b", 1, 2, 0, 2⟩]

/-! ## Helper lemmas -/

/-- Folding additions of a projection from the left equals the starting value
plus the sum of the mapped list; this is the shape of every `reduce` call in
the source. -/
theorem foldl_add_eq_sum {α : Type} (f : α → ℚ) :
    ∀ (l : List α) (a : ℚ), l.foldl (fun s x => s + f x) a = a + (l.map f).sum := by
  intro l
  induction l with
  | nil => intro a; simp
  | cons x xs ih => intro a; simp [ih, add_assoc]

/-- A clamp of the form `Math.max(lo, Math.min(hi, x))` lands in `[lo, hi]`
whenever `lo ≤ hi`. -/
theorem clamp_bounds (lo hi x : ℚ) (h : lo ≤ hi) :
    lo ≤ max lo (min hi x) ∧ max lo (min hi x) ≤ hi :=
  ⟨le_max_left lo (min hi x), max_le h (min_le_left hi x)⟩

/-- A clamp is the identity on values already inside the interval. -/
theorem clamp_eq_self (lo hi x : ℚ) (h1 : lo ≤ x) (h2 : x ≤ hi) :
    max lo (min hi x) = x := by
  rw [min_eq_right h2, max_eq_right h1]

/-- The demand-based price always lands in `[0.7 × basePrice, 1.5 × basePrice]`
for a non-negative base price. -/
theorem demand_price_bounds (p : Product) (log : List SalesRecord) (tw now : ℚ)
    (h : 0 ≤ p.price) :
    p.price * 0.7 ≤ DemandBasedPricing.calculatePrice p log tw now ∧
      DemandBasedPricing.calculatePrice p log tw now ≤ p.price * 1.5 := by
  simp only [DemandBasedPricing.calculatePrice]
  exact clamp_bounds _ _ _ (by nlinarith)

/-- The supply-based price always lands in `[0.8 × basePrice, 1.4 × basePrice]`
for a non-negative base price. -/
theorem supply_price_bounds (p : Product) (h : 0 ≤ p.price) :
    p.price * 0.8 ≤ SupplyBasedPricing.calculatePrice p ∧
      SupplyBasedPricing.calculatePrice p ≤ p.price * 1.4 := by
  simp only [SupplyBasedPricing.calculatePrice]
  exact clamp_bounds _ _ _ (by nlinarith)

/-- The hybrid price always lands in `[0.5 × basePrice, 2.0 × basePrice]` for a
non-negative base price. -/
theorem hybrid_price_bounds (p : Product) (log : List SalesRecord) (tw now : ℚ)
    (h : 0 ≤ p.price) :
    p.price * 0.5 ≤ HybridPricing.calculatePrice p log tw now ∧
      HybridPricing.calculatePrice p log tw now ≤ p.price * 2.0 := by
  simp only [HybridPricing.calculatePrice]
  exact clamp_bounds _ _ _ (by nlinarith)

/-! ## Claims -/

/-- C1, counterexample: the source contains no guard for `initialstock = 0`.
For the product with base price 1, stock 0 and initial stock 0 the JavaScript
stock ratio is `0/0 = NaN`, every comparison in the multiplier chain is false,
the default multiplier 1.0 survives, and the returned price is the base price
1 — not `1.2 × basePrice = 1.2` as the claim asserts. -/
theorem C1_counterexample :
    ¬ SupplyBasedPricing.calculatePrice ⟨1, "cola", "c", 1, 0, 0⟩ = 1.2 * 1 := by
  norm_num [SupplyBasedPricing.calculatePrice, SupplyBasedPricing.stockFactor]

/-- C1, amended: when `initialstock = 0` the Supply-Based strategy does not
fail, but it also never takes the ratio-0 branch: the `NaN` ratio (current
stock 0) leaves the default multiplier 1.0, so the price is the unchanged base
price, and the `+∞` ratio (positive current stock) hits the `≥ 0.8` branch, so
the price is `0.95 × basePrice`. -/
theorem C1_zero_initialstock (p : Product) (hinit : p.initialstock = 0)
    (hstock : 0 ≤ p.stock) (hprice : 0 ≤ p.price) :
    SupplyBasedPricing.calculatePrice p =
      if p.stock = 0 then p.price else 0.95 * p.price := by
  by_cases h0 : p.stock = 0
  · rw [if_pos h0]
    have hf : SupplyBasedPricing.stockFactor p.stock p.initialstock = 1.0 := by
      simp [SupplyBasedPricing.stockFactor, hinit, h0]
    simp only [SupplyBasedPricing.calculatePrice, hf]
    have h1 : p.price * 1.0 = p.price := by ring
    rw [h1]
    exact clamp_eq_self _ _ _ (by nlinarith) (by nlinarith)
  · have hpos : p.stock > 0 := lt_of_le_of_ne hstock (Ne.symm h0)
    rw [if_neg h0]
    have hf : SupplyBasedPricing.stockFactor p.stock p.initialstock = 0.95 := by
      simp [SupplyBasedPricing.stockFactor, hinit, h0, hpos]
    simp only [SupplyBasedPricing.calculatePrice, hf]
    have h1 : p.price * 0.95 = 0.95 * p.price := by ring
    rw [h1]
    exact clamp_eq_self _ _ _ (by nlinarith) (by nlinarith)

/-- C1 witness: the amended statement evaluated at initial stock 0 with
current stock 0 (price stays 2) and with current stock 3 (price becomes
0.95 × 2). -/
theorem C1_zero_initialstock_witness :
    SupplyBasedPricing.calculatePrice ⟨1, "cola", "c", 2, 0, 0⟩ =
        (if (0 : ℚ) = 0 then (2 : ℚ) else 0.95 * 2) ∧
      SupplyBasedPricing.calculatePrice ⟨1, "cola", "c", 2, 3, 0⟩ =
        (if (3 : ℚ) = 0 then (2 : ℚ) else 0.95 * 2) :=
  ⟨C1_zero_initialstock ⟨1, "cola", "c", 2, 0, 0⟩ rfl (by norm_num) (by norm_num),
   C1_zero_initialstock ⟨1, "cola", "c", 2, 3, 0⟩ rfl (by norm_num) (by norm_num)⟩

/-- C2: for a non-negative base price the Demand-Based price lies in
`[0.7 × basePrice, 1.5 × basePrice]`, the Supply-Based price in
`[0.8 × basePrice, 1.4 × basePrice]`, and the Hybrid price in
`[0.5 × basePrice, 2.0 × basePrice]`, for every sales log and window. -/
theorem C2_strategy_bounds (p : Product) (log : List SalesRecord) (tw now : ℚ)
    (hprice : 0 ≤ p.price) :
    (p.price * 0.7 ≤ DemandBasedPricing.calculatePrice p log tw now ∧
        DemandBasedPricing.calculatePrice p log tw now ≤ p.price * 1.5) ∧
      (p.price * 0.8 ≤ SupplyBasedPricing.calculatePrice p ∧
        SupplyBasedPricing.calculatePrice p ≤ p.price * 1.4) ∧
      (p.price * 0.5 ≤ HybridPricing.calculatePrice p log tw now ∧
        HybridPricing.calculatePrice p log tw now ≤ p.price * 2.0) :=
  ⟨demand_price_bounds p log tw now hprice, supply_price_bounds p hprice,
    hybrid_price_bounds p log tw now hprice⟩

/-- C2 witness: the three intervals evaluated for a concrete product of base
price 3, half stock, and an empty log. -/
theorem C2_strategy_bounds_witness :
    (3 * 0.7 ≤ DemandBasedPricing.calculatePrice ⟨1, "cola", "c", 3, 50, 100⟩ [] 24 0 ∧
        DemandBasedPricing.calculatePrice ⟨1, "cola", "c", 3, 50, 100⟩ [] 24 0 ≤ 3 * 1.5) ∧
      (3 * 0.8 ≤ SupplyBasedPricing.calculatePrice ⟨1, "cola", "c", 3, 50, 100⟩ ∧
        SupplyBasedPricing.calculatePrice ⟨1, "cola", "c", 3, 50, 100⟩ ≤ 3 * 1.4) ∧
      (3 * 0.5 ≤ HybridPricing.calculatePrice ⟨1, "cola", "c", 3, 50, 100⟩ [] 24 0 ∧
        HybridPricing.calculatePrice ⟨1, "cola", "c", 3, 50, 100⟩ [] 24 0 ≤ 3 * 2.0) :=
  C2_strategy_bounds ⟨1, "cola", "c", 3, 50, 100⟩ [] 24 0 (by norm_num)

/-- C3: the Demand-Based strategy sums the quantities of the product's sales
inside the time window, its pre-clamp multiplier is the top-down step function
of that sum, the step function takes the values 0.8, 0.95, 1.0, 1.15, 1.3 at
0, 1, 2, 5, 10 recent units, and it is non-decreasing (in particular at those
breakpoints). -/
theorem C3_demand_step_function (p : Product) (log : List SalesRecord) (tw now : ℚ) :
    DemandBasedPricing.totalRecentSales p log tw now =
        ((log.filter fun s =>
            decide (s.productId = toString p.id) &&
              decide (now - s.timestamp ≤ tw * 60 * 60 * 1000)).map
          fun s => s.quantity).sum ∧
      DemandBasedPricing.calculatePrice p log tw now =
        max (p.price * 0.7) (min (p.price * 1.5)
          (p.price *
            DemandBasedPricing.calculateDemandFactor
              (DemandBasedPricing.totalRecentSales p log tw now))) ∧
      (DemandBasedPricing.calculateDemandFactor 0 = 0.8 ∧
        DemandBasedPricing.calculateDemandFactor 1 = 0.95 ∧
        DemandBasedPricing.calculateDemandFactor 2 = 1.0 ∧
        DemandBasedPricing.calculateDemandFactor 5 = 1.15 ∧
        DemandBasedPricing.calculateDemandFactor 10 = 1.3) ∧
      ∀ m n : ℚ, m ≤ n →
        DemandBasedPricing.calculateDemandFactor m ≤
          DemandBasedPricing.calculateDemandFactor n := by
  refine ⟨?_, rfl, ⟨?_, ?_, ?_, ?_, ?_⟩, ?_⟩
  · simp [DemandBasedPricing.totalRecentSales, foldl_add_eq_sum]
  · norm_num [DemandBasedPricing.calculateDemandFactor]
  · norm_num [DemandBasedPricing.calculateDemandFactor]
  · norm_num [DemandBasedPricing.calculateDemandFactor]
  · norm_num [DemandBasedPricing.calculateDemandFactor]
  · norm_num [DemandBasedPricing.calculateDemandFactor]
  · intro m n h
    unfold DemandBasedPricing.calculateDemandFactor
    split_ifs <;> linarith

/-- C3 witness: the step-function values and the monotonicity instance
1 ≤ 5 of the theorem, read off at a concrete product and empty log. -/
theorem C3_demand_step_function_witness :
    DemandBasedPricing.calculateDemandFactor 0 = 0.8 ∧
      DemandBasedPricing.calculateDemandFactor 1 ≤
        DemandBasedPricing.calculateDemandFactor 5 :=
  ⟨(C3_demand_step_function ⟨1, "cola", "c", 1, 0, 0⟩ [] 24 0).2.2.1.1,
    (C3_demand_step_function ⟨1, "cola", "c", 1, 0, 0⟩ [] 24 0).2.2.2 1 5 (by norm_num)⟩

/-- C4: with a positive initial stock the supply multiplier is the in-order
branch chain on the exact stock ratio, so a ratio of exactly 0.3 yields 1.1,
and the ratios 0.05, 0.2, 0.5, 0.85 yield 1.2, 1.1, 1.0, 0.95. -/
theorem C4_supply_branch_order (p : Product) (hpos : 0 < p.initialstock) :
    SupplyBasedPricing.stockFactor p.stock p.initialstock =
        (if p.stock / p.initialstock ≤ 0.1 then 1.2
         else if p.stock / p.initialstock ≤ 0.3 then 1.1
         else if p.stock / p.initialstock ≥ 0.8 then 0.95
         else 1.0) ∧
      SupplyBasedPricing.stockFactor 30 100 = 1.1 ∧
      SupplyBasedPricing.stockFactor 5 100 = 1.2 ∧
      SupplyBasedPricing.stockFactor 20 100 = 1.1 ∧
      SupplyBasedPricing.stockFactor 50 100 = 1.0 ∧
      SupplyBasedPricing.stockFactor 85 100 = 0.95 := by
  refine ⟨?_, ?_, ?_, ?_, ?_, ?_⟩
  · simp [SupplyBasedPricing.stockFactor, ne_of_gt hpos]
  all_goals norm_num [SupplyBasedPricing.stockFactor]

/-- C4 witness: the branch chain evaluated at a concrete product whose stock
ratio is exactly 0.3, hitting the 1.1 branch. -/
theorem C4_supply_branch_order_witness :
    SupplyBasedPricing.stockFactor 30 100 = 1.1 :=
  (C4_supply_branch_order ⟨1, "cola", "c", 1, 30, 100⟩ (by norm_num)).2.1

/-- C5: the Hybrid price is exactly the weighted sum
0.6 × demandPrice + 0.4 × supplyPrice of the two component strategies on the
same product, log and window, clamped to `[0.5 × basePrice, 2.0 × basePrice]`. -/
theorem C5_hybrid_weighted_sum (p : Product) (log : List SalesRecord) (tw now : ℚ) :
    HybridPricing.calculatePrice p log tw now =
      max (0.5 * p.price) (min (2.0 * p.price)
        (0.6 * DemandBasedPricing.calculatePrice p log tw now +
          0.4 * SupplyBasedPricing.calculatePrice p)) := by
  simp only [HybridPricing.calculatePrice]
  rw [show DemandBasedPricing.calculatePrice p log tw now * 0.6 +
        SupplyBasedPricing.calculatePrice p * 0.4 =
      0.6 * DemandBasedPricing.calculatePrice p log tw now +
        0.4 * SupplyBasedPricing.calculatePrice p by ring,
    show p.price * 0.5 = 0.5 * p.price by ring,
    show p.price * 2.0 = 2.0 * p.price by ring]

/-- C6: with `minPriceChange = 0.01`, `applyDynamicPricing` returns the
unchanged current price without attempting a write when the recommendation
differs by strictly less than 0.01; it attempts the write when the difference
is at least 0.01; and on write failure the unchanged original price is
returned (the failure is absorbed, never raised). -/
theorem C6_apply_dynamic_pricing (writeSucceeds : Bool) (p : Product)
    (log : List SalesRecord) (now : ℚ) :
    (|PricingService.calculatePrice p log now - p.price| < 0.01 →
        PricingService.applyDynamicPricing writeSucceeds p log now 0.01 =
          { finalPrice := p.price, writeAttempted := false }) ∧
      (0.01 ≤ |PricingService.calculatePrice p log now - p.price| →
        (PricingService.applyDynamicPricing writeSucceeds p log now 0.01).writeAttempted =
          true) ∧
      (writeSucceeds = false →
        (PricingService.applyDynamicPricing writeSucceeds p log now 0.01).finalPrice =
          p.price) := by
  refine ⟨fun h => ?_, fun h => ?_, fun h => ?_⟩
  · simp only [PricingService.applyDynamicPricing]
    rw [if_neg (not_le.mpr h)]
  · simp only [PricingService.applyDynamicPricing]
    rw [if_pos h]
    cases writeSucceeds <;> rfl
  · subst h
    simp only [PricingService.applyDynamicPricing]
    split_ifs <;> simp_all

/-- C6 witness: a product of base price 1/28 whose hybrid recommendation
differs by exactly 0.005 is left unchanged with no write attempt; a product of
base price 1 (difference 0.14) triggers an attempt; and with a failing write
the returned price equals the original 1. -/
theorem C6_apply_dynamic_pricing_witness :
    PricingService.applyDynamicPricing true ⟨1, "cola", "c", 1/28, 10, 10⟩ [] 0 0.01 =
        { finalPrice := 1/28, writeAttempted := false } ∧
      (PricingService.applyDynamicPricing true ⟨1, "cola", "c", 1, 10, 10⟩ [] 0
          0.01).writeAttempted = true ∧
      (PricingService.applyDynamicPricing false ⟨1, "cola", "c", 1, 10, 10⟩ [] 0
          0.01).finalPrice = 1 :=
  ⟨(C6_apply_dynamic_pricing true ⟨1, "cola", "c", 1/28, 10, 10⟩ [] 0).1
      (by norm_num [PricingService.calculatePrice, HybridPricing.calculatePrice,
        DemandBasedPricing.calculatePrice, DemandBasedPricing.totalRecentSales,
        DemandBasedPricing.calculateDemandFactor, SupplyBasedPricing.calculatePrice,
        SupplyBasedPricing.stockFactor, abs_of_nonpos]),
    (C6_apply_dynamic_pricing true ⟨1, "cola", "c", 1, 10, 10⟩ [] 0).2.1
      (by norm_num [PricingService.calculatePrice, HybridPricing.calculatePrice,
        DemandBasedPricing.calculatePrice, DemandBasedPricing.totalRecentSales,
        DemandBasedPricing.calculateDemandFactor, SupplyBasedPricing.calculatePrice,
        SupplyBasedPricing.stockFactor, abs_of_nonpos]),
    (C6_apply_dynamic_pricing false ⟨1, "cola", "c", 1, 10, 10⟩ [] 0).2.2 rfl⟩

/-- C7: on a non-empty log with non-negative sale prices, the inflation metric
compares the mean price of the last 10 records against the first 10 (windows
taken from the whole log in insertion order, overlapping when the log is
shorter than 20): it equals the relative change times 100 when the old mean is
non-zero, equals 0 when the old mean is 0, and evaluates to exactly 10 on a
log of 10 sales at 2.00 followed by 10 sales at 2.20. -/
theorem C7_price_inflation (log : List SalesRecord) (hne : log ≠ [])
    (hpos : ∀ s ∈ log, 0 ≤ s.priceAtSale) :
    (meanPriceAtSale (log.take 10) ≠ 0 →
        AnalyticsService.calculatePriceInflation log =
          (meanPriceAtSale (log.drop (log.length - 10)) - meanPriceAtSale (log.take 10)) /
              meanPriceAtSale (log.take 10) * 100) ∧
      (meanPriceAtSale (log.take 10) = 0 →
        AnalyticsService.calculatePriceInflation log = 0) ∧
      AnalyticsService.calculatePriceInflation
          (List.replicate 10 ⟨"1", 1, 2, 0, 2⟩ ++
            List.replicate 10 ⟨"1", 1, 2.2, 0, 2.2⟩) = 10 := by
  have hlen : 0 < log.length := List.length_pos.mpr hne
  have htake : ¬((log.drop (log.length - 10)).length = 0 ∨ (log.take 10).length = 0) := by
    push_neg
    constructor
    · rw [List.length_drop]; omega
    · rw [List.length_take]; omega
  have hmean : ∀ l' : List SalesRecord,
      l'.foldl (fun sum sale => sum + sale.priceAtSale) 0 / (l'.length : ℚ) =
        meanPriceAtSale l' := by
    intro l'
    rw [foldl_add_eq_sum (fun s => s.priceAtSale) l' 0, zero_add]
    rfl
  have hmean_nonneg : 0 ≤ meanPriceAtSale (log.take 10) := by
    apply div_nonneg
    · apply List.sum_nonneg
      intro x hx
      obtain ⟨s, hs, rfl⟩ := List.mem_map.mp hx
      exact hpos s (List.mem_of_mem_take hs)
    · positivity
  refine ⟨fun h => ?_, fun h => ?_, ?_⟩
  · have hgt : 0 < meanPriceAtSale (log.take 10) := lt_of_le_of_ne hmean_nonneg (Ne.symm h)
    simp only [AnalyticsService.calculatePriceInflation]
    rw [if_neg htake, hmean, hmean, if_pos hgt]
  · simp only [AnalyticsService.calculatePriceInflation]
    rw [if_neg htake, hmean, hmean, if_neg (by rw [h]; norm_num)]
  · norm_num [AnalyticsService.calculatePriceInflation, List.replicate]

/-- C7 witness: a one-record log at price 2 (overlapping windows) has old mean
2 ≠ 0 and inflation (2 − 2)/2 × 100 = 0. -/
theorem C7_price_inflation_witness :
    AnalyticsService.calculatePriceInflation [⟨"1", 1, 2, 0, 2⟩] = 0 := by
  have h := (C7_price_inflation [⟨"1", 1, 2, 0, 2⟩] (by simp)
      (by intro s hs; rw [List.mem_singleton] at hs; subst hs; norm_num)).1
    (by norm_num [meanPriceAtSale])
  rw [h]
  norm_num [meanPriceAtSale]

/-- The comparator of the top-products sort is transitive. -/
theorem statsLe_trans (a b c : AnalyticsService.ProductStats)
    (hab : AnalyticsService.statsLe a b = true)
    (hbc : AnalyticsService.statsLe b c = true) :
    AnalyticsService.statsLe a c = true := by
  simp only [AnalyticsService.statsLe, decide_eq_true_eq] at hab hbc ⊢
  linarith

/-- The comparator of the top-products sort is total. -/
theorem statsLe_total (a b : AnalyticsService.ProductStats) :
    (AnalyticsService.statsLe a b || AnalyticsService.statsLe b a) = true := by
  simp only [AnalyticsService.statsLe, Bool.or_eq_true, decide_eq_true_eq]
  exact le_total b.totalSold a.totalSold

/-- The stats record built for an id carries that id. -/
theorem calculateProductStats_productId (id : String) (log : List SalesRecord) :
    (AnalyticsService.calculateProductStats id log).productId = id := rfl

/-- The fold building the distinct-id list preserves freedom from duplicates. -/
theorem distinct_fold_nodup (l : List SalesRecord) :
    ∀ acc : List String, acc.Nodup →
      (l.foldl
          (fun acc sale => if sale.productId ∈ acc then acc else acc ++ [sale.productId])
          acc).Nodup := by
  induction l with
  | nil => intro acc h; exact h
  | cons s rest ih =>
    intro acc h
    simp only [List.foldl_cons]
    by_cases hmem : s.productId ∈ acc
    · rw [if_pos hmem]; exact ih acc h
    · rw [if_neg hmem]
      refine ih _ ?_
      simp [List.nodup_append, h, hmem]

/-- The distinct-id list of any log has no duplicates. -/
theorem distinctProductIds_nodup (log : List SalesRecord) :
    (AnalyticsService.distinctProductIds log).Nodup :=
  distinct_fold_nodup log [] List.nodup_nil

/-- Mapping the stats constructor over the distinct ids and projecting the id
back recovers the distinct-id list. -/
theorem map_productId_stats (log : List SalesRecord) :
    (((AnalyticsService.distinctProductIds log).map
        fun id => AnalyticsService.calculateProductStats id log).map
      fun s => s.productId) = AnalyticsService.distinctProductIds log := by
  rw [List.map_map]
  have hcomp : ((fun s : AnalyticsService.ProductStats => s.productId) ∘
      fun id => AnalyticsService.calculateProductStats id log) = fun id => id := rfl
  rw [hcomp]
  simp

/-- C8: the top-products ranking has at most 5 entries, is sorted by
non-increasing `totalSold`, carries pairwise-distinct product ids, each entry
is the full-log stats of an id appearing in the log, and the underlying sort
is stable: any two stats listed in first-appearance order whose order is
compatible with the comparator (in particular ties) keep that order. -/
theorem C8_top_products (log : List SalesRecord) :
    (AnalyticsService.getTopProducts log).length ≤ 5 ∧
      List.Pairwise (fun a b => b.totalSold ≤ a.totalSold)
        (AnalyticsService.getTopProducts log) ∧
      ((AnalyticsService.getTopProducts log).map fun s => s.productId).Nodup ∧
      (∀ s ∈ AnalyticsService.getTopProducts log,
        s = AnalyticsService.calculateProductStats s.productId log ∧
          s.productId ∈ AnalyticsService.distinctProductIds log) ∧
      (∀ a b : AnalyticsService.ProductStats,
        [a, b].Sublist
            ((AnalyticsService.distinctProductIds log).map
              fun id => AnalyticsService.calculateProductStats id log) →
        AnalyticsService.statsLe a b = true →
        [a, b].Sublist
          (((AnalyticsService.distinctProductIds log).map
              fun id => AnalyticsService.calculateProductStats id log).mergeSort
            AnalyticsService.statsLe)) := by
  refine ⟨?_, ?_, ?_, ?_, ?_⟩
  · simp only [AnalyticsService.getTopProducts, List.length_take]
    exact min_le_left _ _
  · have hp := List.sorted_mergeSort statsLe_trans statsLe_total
      ((AnalyticsService.distinctProductIds log).map
        fun id => AnalyticsService.calculateProductStats id log)
    have hp2 : List.Pairwise (fun a b : AnalyticsService.ProductStats =>
        b.totalSold ≤ a.totalSold)
        (((AnalyticsService.distinctProductIds log).map
            fun id => AnalyticsService.calculateProductStats id log).mergeSort
          AnalyticsService.statsLe) := by
      refine hp.imp ?_
      intro a b hab
      simpa [AnalyticsService.statsLe] using hab
    exact List.Pairwise.sublist (List.take_sublist 5 _) hp2
  · have hperm := List.mergeSort_perm
      ((AnalyticsService.distinctProductIds log).map
        fun id => AnalyticsService.calculateProductStats id log)
      AnalyticsService.statsLe
    have hmap := hperm.map fun s : AnalyticsService.ProductStats => s.productId
    have hnodup : (((AnalyticsService.distinctProductIds log).map
        fun id => AnalyticsService.calculateProductStats id log).map
          fun s => s.productId).Nodup := by
      rw [map_productId_stats]
      exact distinctProductIds_nodup log
    have hnodup2 := (hmap.nodup_iff).mpr hnodup
    refine List.Nodup.sublist ?_ hnodup2
    exact List.Sublist.map _ (List.take_sublist 5 _)
  · intro s hs
    have hs2 : s ∈ ((AnalyticsService.distinctProductIds log).map
        fun id => AnalyticsService.calculateProductStats id log).mergeSort
          AnalyticsService.statsLe :=
      List.take_subset 5 _ hs
    have hs3 := List.mem_mergeSort.mp hs2
    obtain ⟨id, hid, rfl⟩ := List.mem_map.mp hs3
    rw [calculateProductStats_productId]
    exact ⟨rfl, hid⟩
  · intro a b hsub hle
    exact List.pair_sublist_mergeSort statsLe_trans statsLe_total hle hsub

/-- The top-products list of the tied sample log keeps the first-appearance
order: the stats sequence is already sorted, so the stable sort fixes it. -/
theorem getTopProducts_sampleTieLog :
    AnalyticsService.getTopProducts sampleTieLog =
      [AnalyticsService.calculateProductStats "a" sampleTieLog,
        AnalyticsService.calculateProductStats "b" sampleTieLog] := by
  have hdist : AnalyticsService.distinctProductIds sampleTieLog = ["a", "b"] := by decide
  have hle : AnalyticsService.statsLe
      (AnalyticsService.calculateProductStats "a" sampleTieLog)
      (AnalyticsService.calculateProductStats "b" sampleTieLog) = true := by
    norm_num [AnalyticsService.statsLe, AnalyticsService.calculateProductStats, sampleTieLog,
      List.filter_cons, List.filter_nil, show ("a" : String) ≠ "b" by decide,
      show ("b" : String) ≠ "a" by decide]
  simp only [AnalyticsService.getTopProducts, hdist, List.map_cons, List.map_nil]
  rw [List.mergeSort_of_sorted (List.pairwise_pair.mpr hle)]
  rfl

/-- C8 witness: for the tied sample log, the first-listed product "a" is an
entry of the ranking, equal to its full-log stats with an id from the log. -/
theorem C8_top_products_witness :
    AnalyticsService.calculateProductStats "a" sampleTieLog =
        AnalyticsService.calculateProductStats
          (AnalyticsService.calculateProductStats "a" sampleTieLog).productId sampleTieLog ∧
      (AnalyticsService.calculateProductStats "a" sampleTieLog).productId ∈
        AnalyticsService.distinctProductIds sampleTieLog :=
  (C8_top_products sampleTieLog).2.2.2.1 _
    (by rw [getTopProducts_sampleTieLog]; exact List.mem_cons_self _ _)

/-- C9: the batch operation returns a list of the same length in which the
i-th product is the i-th input product with only its price replaced — by the
outcome of the single-product operation run on that product with its own
write-success flag — so one product's write failure leaves every other
product's processing untouched. -/
theorem C9_batch_pointwise (writeSucceeds : Int → Bool) (products : List Product)
    (log : List SalesRecord) (now : ℚ) :
    (PricingService.applyDynamicPricingBatch writeSucceeds products log now).length =
        products.length ∧
      ∀ i : ℕ,
        (PricingService.applyDynamicPricingBatch writeSucceeds products log now)[i]? =
          (products[i]?).map fun p =>
            { p with
              price :=
                (PricingService.applyDynamicPricing (writeSucceeds p.id) p log now
                    0.01).finalPrice } := by
  constructor
  · simp [PricingService.applyDynamicPricingBatch]
  · intro i
    simp [PricingService.applyDynamicPricingBatch, List.getElem?_map]

/-- C10: for a non-negative base price the weighted sum
0.6 × demandPrice + 0.4 × supplyPrice already lies in
`[0.74 × basePrice, 1.46 × basePrice]`, strictly inside the hybrid clamp
interval, so the hybrid clamp is never active and the Hybrid price equals the
unclamped weighted sum. -/
theorem C10_hybrid_clamp_inactive (p : Product) (log : List SalesRecord) (tw now : ℚ)
    (hprice : 0 ≤ p.price) (hinit : 0 < p.initialstock) :
    (0.74 * p.price ≤
        0.6 * DemandBasedPricing.calculatePrice p log tw now +
          0.4 * SupplyBasedPricing.calculatePrice p ∧
      0.6 * DemandBasedPricing.calculatePrice p log tw now +
          0.4 * SupplyBasedPricing.calculatePrice p ≤ 1.46 * p.price) ∧
      HybridPricing.calculatePrice p log tw now =
        0.6 * DemandBasedPricing.calculatePrice p log tw now +
          0.4 * SupplyBasedPricing.calculatePrice p := by
  obtain ⟨hd1, hd2⟩ := demand_price_bounds p log tw now hprice
  obtain ⟨hs1, hs2⟩ := supply_price_bounds p hprice
  have hlow : 0.74 * p.price ≤
      0.6 * DemandBasedPricing.calculatePrice p log tw now +
        0.4 * SupplyBasedPricing.calculatePrice p := by nlinarith
  have hhigh : 0.6 * DemandBasedPricing.calculatePrice p log tw now +
      0.4 * SupplyBasedPricing.calculatePrice p ≤ 1.46 * p.price := by nlinarith
  refine ⟨⟨hlow, hhigh⟩, ?_⟩
  simp only [HybridPricing.calculatePrice]
  rw [show DemandBasedPricing.calculatePrice p log tw now * 0.6 +
        SupplyBasedPricing.calculatePrice p * 0.4 =
      0.6 * DemandBasedPricing.calculatePrice p log tw now +
        0.4 * SupplyBasedPricing.calculatePrice p by ring]
  exact clamp_eq_self _ _ _ (by nlinarith) (by nlinarith)

/-- C10 witness: the clamp is inactive for a concrete product with base price
3 and full stock over an empty log — the hybrid price is exactly the weighted
sum of the component prices. -/
theorem C10_hybrid_clamp_inactive_witness :
    HybridPricing.calculatePrice ⟨1, "cola", "c", 3, 100, 100⟩ [] 24 0 =
      0.6 * DemandBasedPricing.calculatePrice ⟨1, "cola", "c", 3, 100, 100⟩ [] 24 0 +
        0.4 * SupplyBasedPricing.calculatePrice ⟨1, "cola", "c", 3, 100, 100⟩ :=
  (C10_hybrid_clamp_inactive ⟨1, "cola", "c", 3, 100, 100⟩ [] 24 0 (by norm_num)
    (by norm_num)).2

